import Mathlib

/-!
Verification of the newsReaderGolang relevance-scoring and item-lifecycle
pipeline, as a shallow embedding of the Go source.

Modelling conventions:
* SQLite REAL values that are only stored and compared (the persisted
  `relevance_score`, timestamps) are modelled as exact rationals and integers;
  IEEE doubles are a subset of the rationals and comparisons on them are exact.
* The floating point arithmetic inside the similarity engine (which divides by
  a square root) is modelled over the real numbers.
* Timestamps (`time.Time`, `time.Duration`) are modelled as integers on a
  common instant scale.
* The Go byte-slice `UserInterest.Embedding` is observed by the source only
  through `len(...) > 0` and `json.Unmarshal` (which either yields a float
  vector or fails); it is therefore modelled by the three-way type `EmbBytes`.
* The external embedding provider (an HTTP call that either returns a vector
  or fails) is modelled as an oracle `String → Option (List ℝ)`.
* Go structs passed by value are modelled as immutable Lean structures; in
  particular `for _, interest := range interests` iterates over copies, so an
  assignment to the loop variable inside the body is modelled by the local
  value it produces and nothing else.
-/

namespace NewsReadr

/-- Go `models.Article` (part_000): the persisted item row.  `published_at`
and `fetched_at` are instants; `relevance_score` is the stored REAL. -/
structure Article where
  id : Int
  feedId : Int
  title : String
  url : String
  content : String
  description : String
  publishedAt : Int
  fetchedAt : Int
  relevanceScore : ℚ
  deriving Repr, DecidableEq

/-- The observable states of the Go byte slice `UserInterest.Embedding`:
length zero, or non-empty bytes that `json.Unmarshal` decodes to a float
vector, or non-empty bytes on which `json.Unmarshal` fails. -/
inductive EmbBytes where
  | empty
  | valid (v : List ℝ)
  | corrupt

/-- Go `models.UserInterest` (part_000). -/
structure UserInterest where
  id : Int
  description : String
  weight : ℝ
  embedding : EmbBytes

/-- Go `models.ReadArticle` (part_000): a read-marker row.  In the schema
(db.go) `article_id` is the PRIMARY KEY of `read_articles`. -/
structure ReadArticle where
  articleId : Int
  readAt : Int
  deriving Repr, DecidableEq

/-- The sqlite database state: the three tables the claims concern, plus the
id counter for AUTOINCREMENT.  Feeds only matter to the claims through the
`feed_id` value carried by each article, so the `feeds` table itself is not
modelled. -/
structure Store where
  articles : List Article
  readArticles : List ReadArticle
  interests : List UserInterest
  nextId : Int

/-- The WHERE clause of `GetUnreadArticles` (part_003): the LEFT JOIN against
`read_articles` keeps rows with no marker, and `a.published_at >= ?` with the
cutoff `now - maxAge`. -/
def unreadPred (st : Store) (now maxAge : Int) (a : Article) : Bool :=
  !(st.readArticles.any fun r => r.articleId = a.id) && decide (now - maxAge ≤ a.publishedAt)

/-- The ORDER BY key of `GetUnreadArticles`:
`relevance_score DESC, published_at DESC` as a boolean total preorder
(x sorts no later than y). -/
def unreadLe (x y : Article) : Bool :=
  decide (y.relevanceScore < x.relevanceScore ∨
    (y.relevanceScore = x.relevanceScore ∧ y.publishedAt ≤ x.publishedAt))

/-- Go `DB.GetUnreadArticles` (part_003 lines 111-137): rows satisfying the
WHERE clause, in ORDER BY order.  The sort is modelled by `List.mergeSort`
with the ORDER BY key; the claims only use that the result is a permutation
of the filtered rows arranged according to the key. -/
def GetUnreadArticles (st : Store) (now maxAge : Int) : List Article :=
  (st.articles.filter (unreadPred st now maxAge)).mergeSort unreadLe

/-- Go `DB.MarkArticleRead` (part_003 lines 158-167): a plain
`INSERT INTO read_articles (article_id, read_at) VALUES (?, ?)` whose error is
returned to the caller.  Under the schema of db.go, `article_id` is the
PRIMARY KEY and a FOREIGN KEY to `articles(id)` with foreign keys enabled, so
sqlite rejects a duplicate marker and a marker for a missing article. -/
def MarkArticleRead (st : Store) (articleId now : Int) : Except String Store :=
  if st.readArticles.any fun r => r.articleId = articleId then
    Except.error "UNIQUE constraint failed: read_articles.article_id"
  else if !(st.articles.any fun a => a.id = articleId) then
    Except.error "FOREIGN KEY constraint failed"
  else
    Except.ok { st with readArticles := st.readArticles ++ [⟨articleId, now⟩] }

/-- Go `DB.UpdateArticleRelevance` (part_003 lines 231-238):
`UPDATE articles SET relevance_score = ? WHERE id = ?`. -/
def UpdateArticleRelevance (st : Store) (articleId : Int) (score : ℚ) : Store :=
  { st with
    articles := st.articles.map fun a =>
      if a.id = articleId then { a with relevanceScore := score } else a }

/-- Go `DB.AddArticle` (part_003 lines 92-108): an INSERT that sqlite rejects
when the unique `url` collides; on success the row gets the next id and
`fetched_at := time.Now()`. -/
def AddArticle (st : Store) (now : Int) (a : Article) : Except String (Store × Article) :=
  if st.articles.any fun b => b.url = a.url then
    Except.error "UNIQUE constraint failed: articles.url"
  else
    let stored := { a with id := st.nextId, fetchedAt := now }
    Except.ok ({ st with articles := st.articles ++ [stored], nextId := st.nextId + 1 }, stored)

/-- The normalized feed item handed to the pipeline by the parser
(`gofeed.Item`, as used by `convertToArticle`): the two parsed timestamps are
nilable pointers.  Text is modelled as sequences of the units that Go `len`
and slicing index (bytes); the claims only exercise single-unit characters,
for which the two agree. -/
structure FeedItem where
  title : String
  link : String
  content : String
  description : String
  publishedParsed : Option Int
  updatedParsed : Option Int
  deriving Repr, DecidableEq

/-- Go `Fetcher.convertToArticle` (fetcher.go lines 80-118): pick
`PublishedParsed`, else `UpdatedParsed`, else return nil; prefer `Content`
over `Description` for the stored content; synthesize the description from
`Content` (truncated to 500 units plus "..." only when longer than 500) when
`Description` is empty and `Content` is not. -/
def convertToArticle (item : FeedItem) (feedId : Int) : Option Article :=
  let publishedAt? : Option Int :=
    match item.publishedParsed with
    | some t => some t
    | none =>
      match item.updatedParsed with
      | some t => some t
      | none => none
  match publishedAt? with
  | none => none
  | some publishedAt =>
    let content :=
      if item.content ≠ "" then item.content
      else if item.description ≠ "" then item.description
      else ""
    let description :=
      if item.description = "" ∧ item.content ≠ "" then
        if 500 < item.content.length then item.content.take 500 ++ "..."
        else item.content
      else item.description
    some { id := 0, feedId := feedId, title := item.title, url := item.link,
           content := content, description := description,
           publishedAt := publishedAt, fetchedAt := 0, relevanceScore := 0 }

/-- Go `Fetcher.FetchAndStore` (fetcher.go lines 34-56) after the feed has
been fetched and parsed: convert each normalized item, skip the ones
`convertToArticle` rejects, attempt the insert, silently skip duplicates, and
count the successful inserts. -/
def FetchAndStore (st : Store) (now feedId : Int) (items : List FeedItem) : Store × Nat :=
  items.foldl
    (fun acc item =>
      match convertToArticle item feedId with
      | none => acc
      | some a =>
        match AddArticle acc.1 now a with
        | Except.error _ => acc
        | Except.ok (st2, _) => (st2, acc.2 + 1))
    (st, 0)

/-- Go `CosineSimilarity` (part_002 lines 79-96): 0 on mismatched lengths;
one loop over the common index range accumulating the dot product and the two
squared norms; 0 when either squared norm is 0; otherwise the quotient by the
product of the square roots. -/
noncomputable def CosineSimilarity (a b : List ℝ) : ℝ :=
  if a.length ≠ b.length then 0
  else if (∑ i ∈ Finset.range a.length, a.getD i 0 * a.getD i 0) = 0 ∨
      (∑ i ∈ Finset.range a.length, b.getD i 0 * b.getD i 0) = 0 then 0
  else (∑ i ∈ Finset.range a.length, a.getD i 0 * b.getD i 0) /
    (Real.sqrt (∑ i ∈ Finset.range a.length, a.getD i 0 * a.getD i 0) *
     Real.sqrt (∑ i ∈ Finset.range a.length, b.getD i 0 * b.getD i 0))

/-- The query text `fmt.Sprintf("%s. %s", article.Title, article.Description)`
built at the top of `ScoreArticle` (part_002 line 101), with no conditional of
any kind. -/
def articleText (a : Article) : String :=
  a.title ++ ". " ++ a.description

/-- The two error returns of Go `ScoreArticle`: failure to embed the article
text, and `json.Unmarshal` failure on a non-empty cached interest embedding. -/
inductive ScoreErr where
  | articleEmbedding
  | unmarshalInterest
  deriving Repr, DecidableEq

/-- The interest loop of Go `ScoreArticle` (part_002 lines 113-136), carrying
the `totalScore` and `totalWeight` accumulators.  Besides the accumulators it
returns the list of texts sent to the embedding provider, in order, so that
provider traffic is observable; `none` models the early `return 0, err` on an
undecodable cached embedding.  A cached embedding is used as is; an empty one
is requested from the provider, and on provider failure the interest is
skipped (no contribution to either accumulator).  The Go loop variable is a
copy of the slice element, so the assignment `interest.Embedding = embData`
after a successful generation only affects that copy and is modelled by
nothing: the caller never observes it. -/
noncomputable def scoreLoop (provider : String → Option (List ℝ)) (articleEmb : List ℝ) :
    List UserInterest → ℝ → ℝ → Option (ℝ × ℝ) × List String
  | [], totalScore, totalWeight => (some (totalScore, totalWeight), [])
  | i :: rest, totalScore, totalWeight =>
    match i.embedding with
    | EmbBytes.corrupt => (none, [])
    | EmbBytes.valid v =>
        scoreLoop provider articleEmb rest
          (totalScore + CosineSimilarity articleEmb v * i.weight) (totalWeight + i.weight)
    | EmbBytes.empty =>
        match provider i.description with
        | none =>
            let r := scoreLoop provider articleEmb rest totalScore totalWeight
            (r.1, i.description :: r.2)
        | some v =>
            let r := scoreLoop provider articleEmb rest
              (totalScore + CosineSimilarity articleEmb v * i.weight) (totalWeight + i.weight)
            (r.1, i.description :: r.2)

/-- Go `ScoreArticle` (part_002 lines 99-143): embed the query text (failure
is an error return), run the interest loop, and return 0 when the total
weight is 0, the quotient otherwise.  The second component is the list of
texts sent to the provider.  `Except.error` models the Go `return 0, err`
paths. -/
noncomputable def ScoreArticle (provider : String → Option (List ℝ))
    (article : Article) (interests : List UserInterest) : Except ScoreErr ℝ × List String :=
  match provider (articleText article) with
  | none => (Except.error ScoreErr.articleEmbedding, [articleText article])
  | some articleEmb =>
    match scoreLoop provider articleEmb interests 0 0 with
    | (none, calls) => (Except.error ScoreErr.unmarshalInterest, articleText article :: calls)
    | (some (totalScore, totalWeight), calls) =>
        (if totalWeight = 0 then Except.ok 0 else Except.ok (totalScore / totalWeight),
         articleText article :: calls)

/-- A provider used by several concrete evaluations: it answers every request
with the vector [1]. -/
def providerOne : String → Option (List ℝ) :=
  fun _ => some [1]

/-- A concrete article with an empty description and a non-empty body. -/
def articleNoDesc : Article :=
  { id := 1, feedId := 1, title := "T", url := "u", content := "body text",
    description := "", publishedAt := 0, fetchedAt := 0, relevanceScore := 0 }

/-- Spec-side notion for C2: the embedding an interest yields, if any — the
decoded cache when present, otherwise whatever the provider returns for its
description.  Stated from the spec wording "interests that yielded a usable
embedding"; compared below against the loop translated from the source. -/
noncomputable def usableEmbedding (provider : String → Option (List ℝ))
    (i : UserInterest) : Option (List ℝ) :=
  match i.embedding with
  | EmbBytes.valid v => some v
  | EmbBytes.empty => provider i.description
  | EmbBytes.corrupt => none

/-- Spec-side numerator for C2: Σ similarity(article, interest) · weight over
the interests that yielded a usable embedding. -/
noncomputable def specNumerator (provider : String → Option (List ℝ))
    (articleEmb : List ℝ) (interests : List UserInterest) : ℝ :=
  (interests.filterMap fun i =>
    (usableEmbedding provider i).map fun v => CosineSimilarity articleEmb v * i.weight).sum

/-- Spec-side denominator for C2: Σ weight over the interests that yielded a
usable embedding. -/
noncomputable def specDenominator (provider : String → Option (List ℝ))
    (interests : List UserInterest) : ℝ :=
  (interests.filterMap fun i => (usableEmbedding provider i).map fun _ => i.weight).sum

/-- The provider requests made by the interest loop when nothing aborts it:
the descriptions of the interests with an empty cache, in order. -/
def emptyCacheDescs (interests : List UserInterest) : List String :=
  interests.filterMap fun i =>
    match i.embedding with
    | EmbBytes.empty => some i.description
    | _ => none

/-- Concrete article for the C2 witness. -/
def articleNews : Article :=
  { id := 1, feedId := 1, title := "news", url := "u", content := "",
    description := "stuff", publishedAt := 0, fetchedAt := 0, relevanceScore := 0 }

/-- Concrete interest with cached embedding [1, 0] and weight 2: similarity 1
against an article embedded at [1, 0]. -/
def interestSim1 : UserInterest := ⟨1, "i1", 2, EmbBytes.valid [1, 0]⟩

/-- Concrete interest with cached embedding [0, 1] and weight 1: similarity 0
against an article embedded at [1, 0]. -/
def interestSim0 : UserInterest := ⟨2, "i2", 1, EmbBytes.valid [0, 1]⟩

/-- Concrete provider answering every request with the vector [1, 0]. -/
def providerE1 : String → Option (List ℝ) := fun _ => some [1, 0]

/-- Concrete interest whose cached embedding bytes do not decode. -/
def interestCorrupt : UserInterest := ⟨4, "bad", 1, EmbBytes.corrupt⟩

/-- Concrete interest with no cached embedding. -/
def interestUncached : UserInterest := ⟨3, "topic", 1, EmbBytes.empty⟩

/-- A second concrete article, distinct from `articleNoDesc`. -/
def articleOther : Article :=
  { id := 2, feedId := 1, title := "U", url := "u2", content := "",
    description := "d", publishedAt := 0, fetchedAt := 0, relevanceScore := 0 }

/-- The loop body of Go `ScoreAllUnscored` (part_002 lines 204-223): skip an
article with `RelevanceScore > 0`, otherwise score it and write the obtained
score back, skipping the article on a scoring failure.  The per-article score
is the result of `ScoreArticle` with the fetched interests; since that
computation goes through the external provider, it is abstracted as the
oracle `scorer` (`none` models its error return), and the value it yields is
the stored REAL.  The second accumulator component lists the ids whose
relevance was updated, in order. -/
def scoreStep (scorer : Article → Option ℚ) (acc : Store × List Int) (a : Article) :
    Store × List Int :=
  if 0 < a.relevanceScore then acc
  else
    match scorer a with
    | none => acc
    | some s => (UpdateArticleRelevance acc.1 a.id s, acc.2 ++ [a.id])

/-- Go `ScoreAllUnscored` (part_002 lines 185-230): a no-op when no interests
are configured; otherwise the fold of the loop body `scoreStep` over the
unread working set. -/
def ScoreAllUnscored (scorer : Article → Option ℚ) (st : Store) (now maxAge : Int) :
    Store × List Int :=
  if st.interests.isEmpty then (st, [])
  else (GetUnreadArticles st now maxAge).foldl (scoreStep scorer) (st, [])

/-- A minimal concrete article. -/
def articlePlain : Article :=
  { id := 1, feedId := 1, title := "t", url := "u", content := "",
    description := "", publishedAt := 0, fetchedAt := 0, relevanceScore := 0 }

/-- A store in which article 1 is already marked read. -/
def storeMarked : Store :=
  { articles := [articlePlain], readArticles := [⟨1, 5⟩], interests := [], nextId := 2 }

/-- A concrete article carrying a stored negative relevance score, as a
previous scoring pass can produce (cosine similarity ranges over [-1, 1] and
`UpdateArticleRelevance` stores whatever `ScoreArticle` returned). -/
def articleNegScore : Article :=
  { id := 1, feedId := 1, title := "t", url := "u", content := "",
    description := "", publishedAt := 0, fetchedAt := 0, relevanceScore := -1 }

/-- A store holding that article, unread, with one interest configured. -/
def storeNegScore : Store :=
  { articles := [articleNegScore], readArticles := [], interests := [interestUncached],
    nextId := 2 }

/-- A scorer oracle that scores every article 1/2. -/
def scorerHalf : Article → Option ℚ := fun _ => some (1 / 2)


/-!
Theorems.  Each claim of the specification is settled by one named theorem
below; helper lemmas carry no claim by themselves.
-/

/-- The sort key is transitive. -/
theorem unreadLe_trans (a b c : Article) (hab : unreadLe a b) (hbc : unreadLe b c) :
    unreadLe a c := by
  simp only [unreadLe, decide_eq_true_eq] at hab hbc ⊢
  rcases hab with h1 | ⟨h1, h1p⟩
  · rcases hbc with h2 | ⟨h2, h2p⟩
    · exact Or.inl (h2.trans h1)
    · exact Or.inl (h2 ▸ h1)
  · rcases hbc with h2 | ⟨h2, h2p⟩
    · exact Or.inl (h1 ▸ h2)
    · exact Or.inr ⟨h2.trans h1, h2p.trans h1p⟩

/-- The sort key is total. -/
theorem unreadLe_total (a b : Article) : unreadLe a b || unreadLe b a := by
  simp only [unreadLe, Bool.or_eq_true, decide_eq_true_eq]
  rcases lt_trichotomy a.relevanceScore b.relevanceScore with h | h | h
  · exact Or.inr (Or.inl h)
  · rcases le_total a.publishedAt b.publishedAt with hp | hp
    · exact Or.inr (Or.inr ⟨h, hp⟩)
    · exact Or.inl (Or.inr ⟨h.symm, hp⟩)
  · exact Or.inl (Or.inl h)

/-- C1.  `GetUnreadArticles` returns exactly the articles with no read marker
and `published_at >= now - maxAge` (as a permutation of that filter of the
table), and the returned order is such that every earlier element either has
strictly greater relevance score than every later one, or equal score and a
publish time no earlier — i.e. relevance descending with ties broken by
publish time descending. -/
theorem getUnreadArticles_ordering (st : Store) (now maxAge : Int) :
    (GetUnreadArticles st now maxAge).Perm
      (st.articles.filter (unreadPred st now maxAge))
    ∧ (GetUnreadArticles st now maxAge).Pairwise
        (fun x y => y.relevanceScore < x.relevanceScore ∨
          (y.relevanceScore = x.relevanceScore ∧ y.publishedAt ≤ x.publishedAt)) := by
  constructor
  · exact List.mergeSort_perm _ _
  · have h := List.sorted_mergeSort
      (fun a b c => unreadLe_trans a b c) (fun a b => unreadLe_total a b)
      (st.articles.filter (unreadPred st now maxAge))
    refine List.Pairwise.imp ?_ h
    intro x y hxy
    simpa only [unreadLe, decide_eq_true_eq] using hxy

/-- Helper for C8: a batch all of whose items lack both timestamps stores
nothing, from any starting accumulator. -/
theorem fetchAndStore_all_dateless (now feedId : Int) (items : List FeedItem)
    (h : ∀ item ∈ items, item.publishedParsed = none ∧ item.updatedParsed = none) :
    ∀ st : Store, FetchAndStore st now feedId items = (st, 0) := by
  induction items with
  | nil => intro st; rfl
  | cons item rest ih =>
    intro st
    have hitem := h item (List.mem_cons_self item rest)
    have hrest : ∀ x ∈ rest, x.publishedParsed = none ∧ x.updatedParsed = none :=
      fun x hx => h x (List.mem_cons_of_mem item hx)
    have hconv : convertToArticle item feedId = none := by
      simp [convertToArticle, hitem.1, hitem.2]
    have := ih hrest
    simpa [FetchAndStore, hconv] using this st

/-- C8.  Timestamp selection in `convertToArticle`: the candidate is rejected
exactly when both parsed timestamps are absent; an explicit published
timestamp is used when present; otherwise the updated timestamp is used; and
a batch of items that all lack both timestamps stores nothing, so no article
row ever carries a synthetic publish time. -/
theorem convertToArticle_timestamp (item : FeedItem) (feedId : Int) :
    (convertToArticle item feedId = none ↔
      item.publishedParsed = none ∧ item.updatedParsed = none)
    ∧ (∀ t, item.publishedParsed = some t →
        (convertToArticle item feedId).map (·.publishedAt) = some t)
    ∧ (∀ t, item.publishedParsed = none → item.updatedParsed = some t →
        (convertToArticle item feedId).map (·.publishedAt) = some t)
    ∧ (∀ st now items2, (∀ x ∈ items2, x.publishedParsed = none ∧ x.updatedParsed = none) →
        FetchAndStore st now feedId items2 = (st, 0)) := by
  refine ⟨?_, ?_, ?_, ?_⟩
  · cases hp : item.publishedParsed with
    | some t => simp [convertToArticle, hp]
    | none =>
      cases hu : item.updatedParsed with
      | some t => simp [convertToArticle, hp, hu]
      | none => simp [convertToArticle, hp, hu]
  · intro t hp
    simp [convertToArticle, hp]
  · intro t hp hu
    simp [convertToArticle, hp, hu]
  · intro st now items2 h
    exact fetchAndStore_all_dateless now feedId items2 h st

/-- Witness for C8 at concrete inputs: an item with an explicit published
timestamp keeps it, one with only an updated timestamp falls back to it, and
a dateless item is rejected and never stored. -/
theorem convertToArticle_timestamp_witness :
    ((convertToArticle ⟨"t", "u", "c", "d", some 5, some 9⟩ 1).map (·.publishedAt) = some 5)
    ∧ ((convertToArticle ⟨"t", "u", "c", "d", none, some 9⟩ 1).map (·.publishedAt) = some 9)
    ∧ (convertToArticle ⟨"t", "u", "c", "d", none, none⟩ 1 = none)
    ∧ (FetchAndStore ⟨[], [], [], 1⟩ 0 1 [⟨"t", "u", "c", "d", none, none⟩] = (⟨[], [], [], 1⟩, 0)) := by
  refine ⟨?_, ?_, ?_, ?_⟩
  · exact (convertToArticle_timestamp ⟨"t", "u", "c", "d", some 5, some 9⟩ 1).2.1 5 rfl
  · exact (convertToArticle_timestamp ⟨"t", "u", "c", "d", none, some 9⟩ 1).2.2.1 9 rfl rfl
  · exact (convertToArticle_timestamp ⟨"t", "u", "c", "d", none, none⟩ 1).1.mpr ⟨rfl, rfl⟩
  · exact (convertToArticle_timestamp ⟨"t", "u", "c", "d", none, none⟩ 1).2.2.2
      ⟨[], [], [], 1⟩ 0 [⟨"t", "u", "c", "d", none, none⟩]
      (by intro x hx; simp at hx; subst hx; exact ⟨rfl, rfl⟩)

/-- Counterexample to C9 as stated: for a feed item with no summary and the
two-character body "hi", the stored description is the body itself with no
ellipsis marker, not the claimed truncation-plus-ellipsis "hi...". -/
theorem convertToArticle_short_body_keeps_no_ellipsis :
    ((convertToArticle ⟨"t", "u", "hi", "", some 5, none⟩ 1).map (·.description) = some "hi")
    ∧ ((convertToArticle ⟨"t", "u", "hi", "", some 5, none⟩ 1).map (·.description) ≠ some "hi...") := by
  constructor
  · rfl
  · have h1 : (convertToArticle ⟨"t", "u", "hi", "", some 5, none⟩ 1).map (·.description) =
        some "hi" := rfl
    rw [h1]
    decide

/-- C9 as amended.  When the item has a summary it is stored unchanged as the
description; when the summary is empty and the body is non-empty, the
description is the body truncated to 500 units plus "..." if the body exceeds
500 units, and the entire body unchanged (no ellipsis) otherwise. -/
theorem convertToArticle_description (item : FeedItem) (feedId : Int) (a : Article)
    (h : convertToArticle item feedId = some a) :
    (item.description ≠ "" → a.description = item.description)
    ∧ (item.description = "" → item.content ≠ "" → 500 < item.content.length →
        a.description = item.content.take 500 ++ "...")
    ∧ (item.description = "" → item.content ≠ "" → item.content.length ≤ 500 →
        a.description = item.content) := by
  cases hp : item.publishedParsed with
  | some t =>
    simp only [convertToArticle, hp] at h
    refine ⟨?_, ?_, ?_⟩
    · intro hd
      rw [← Option.some.injEq] at h
      simp only [Option.some.injEq] at h
      subst h
      simp [hd]
    · intro hd hc hlen
      simp only [Option.some.injEq] at h
      subst h
      simp [hd, hc, hlen]
    · intro hd hc hlen
      simp only [Option.some.injEq] at h
      subst h
      simp [hd, hc, not_lt.mpr hlen]
  | none =>
    cases hu : item.updatedParsed with
    | some t =>
      simp only [convertToArticle, hp, hu, Option.some.injEq] at h
      subst h
      refine ⟨fun hd => by simp [hd], fun hd hc hlen => by simp [hd, hc, hlen],
        fun hd hc hlen => by simp [hd, hc, not_lt.mpr hlen]⟩
    | none => simp [convertToArticle, hp, hu] at h

/-- Witness for C9 as amended at concrete inputs: a present summary is kept
unchanged, and a short body becomes the description with no ellipsis. -/
theorem convertToArticle_description_witness :
    (convertToArticle ⟨"t", "u", "body", "sum", some 5, none⟩ 1 =
      some { id := 0, feedId := 1, title := "t", url := "u", content := "body",
             description := "sum", publishedAt := 5, fetchedAt := 0, relevanceScore := 0 })
    ∧ ({ id := 0, feedId := 1, title := "t", url := "u", content := "body",
         description := "sum", publishedAt := 5, fetchedAt := 0,
         relevanceScore := 0 : Article }).description = "sum"
    ∧ (convertToArticle ⟨"t", "u", "hi", "", some 5, none⟩ 1 =
      some { id := 0, feedId := 1, title := "t", url := "u", content := "hi",
             description := "hi", publishedAt := 5, fetchedAt := 0, relevanceScore := 0 })
    ∧ ({ id := 0, feedId := 1, title := "t", url := "u", content := "hi",
         description := "hi", publishedAt := 5, fetchedAt := 0,
         relevanceScore := 0 : Article }).description = "hi" := by
  refine ⟨by rfl, ?_, by rfl, ?_⟩
  · exact (convertToArticle_description ⟨"t", "u", "body", "sum", some 5, none⟩ 1 _ rfl).1
      (by decide)
  · exact (convertToArticle_description ⟨"t", "u", "hi", "", some 5, none⟩ 1 _ rfl).2.2
      rfl (by decide) (by decide)

/-- Helper for C7: one-sided Cauchy-Schwarz bound for the indexed sums. -/
theorem listDot_le_sqrt_mul_sqrt (f g : ℕ → ℝ) (n : ℕ) :
    ∑ i ∈ Finset.range n, f i * g i ≤
      Real.sqrt (∑ i ∈ Finset.range n, f i * f i) *
        Real.sqrt (∑ i ∈ Finset.range n, g i * g i) := by
  have h := Real.sum_mul_le_sqrt_mul_sqrt (Finset.range n) f g
  simpa [pow_two] using h

/-- C7.  `CosineSimilarity` returns 0 — not an error — whenever the two
vectors have different lengths or either is empty, and its value always lies
in [-1, 1]; when the lengths agree and both squared norms are non-zero, the
value is exactly the cosine quotient. -/
theorem cosineSimilarity_spec (a b : List ℝ) :
    ((a.length ≠ b.length ∨ a = [] ∨ b = []) → CosineSimilarity a b = 0)
    ∧ (-1 ≤ CosineSimilarity a b ∧ CosineSimilarity a b ≤ 1)
    ∧ (a.length = b.length →
        (∑ i ∈ Finset.range a.length, a.getD i 0 * a.getD i 0) ≠ 0 →
        (∑ i ∈ Finset.range a.length, b.getD i 0 * b.getD i 0) ≠ 0 →
        CosineSimilarity a b =
          (∑ i ∈ Finset.range a.length, a.getD i 0 * b.getD i 0) /
            (Real.sqrt (∑ i ∈ Finset.range a.length, a.getD i 0 * a.getD i 0) *
             Real.sqrt (∑ i ∈ Finset.range a.length, b.getD i 0 * b.getD i 0))) := by
  refine ⟨?_, ?_, ?_⟩
  · rintro (h | h | h)
    · simp [CosineSimilarity, h]
    · subst h
      by_cases hb : b.length = 0
      · rw [CosineSimilarity, if_neg (by simp [hb]), if_pos (Or.inl (by simp))]
      · rw [CosineSimilarity, if_pos (by simpa using Ne.symm hb)]
    · subst h
      by_cases ha : a.length = 0
      · rw [CosineSimilarity, if_neg (by simp [ha]), if_pos (Or.inl (by simp [ha]))]
      · rw [CosineSimilarity, if_pos (by simpa using ha)]
  · unfold CosineSimilarity
    split
    · norm_num
    · split
      · norm_num
      · rename_i hlen hnz
        push_neg at hnz
        obtain ⟨hA, hB⟩ := hnz
        have hA0 : (0 : ℝ) ≤ ∑ i ∈ Finset.range a.length, a.getD i 0 * a.getD i 0 :=
          Finset.sum_nonneg fun i _ => mul_self_nonneg _
        have hB0 : (0 : ℝ) ≤ ∑ i ∈ Finset.range a.length, b.getD i 0 * b.getD i 0 :=
          Finset.sum_nonneg fun i _ => mul_self_nonneg _
        have hApos : (0 : ℝ) < ∑ i ∈ Finset.range a.length, a.getD i 0 * a.getD i 0 :=
          lt_of_le_of_ne hA0 (Ne.symm hA)
        have hBpos : (0 : ℝ) < ∑ i ∈ Finset.range a.length, b.getD i 0 * b.getD i 0 :=
          lt_of_le_of_ne hB0 (Ne.symm hB)
        have hden : (0 : ℝ) < Real.sqrt (∑ i ∈ Finset.range a.length, a.getD i 0 * a.getD i 0) *
            Real.sqrt (∑ i ∈ Finset.range a.length, b.getD i 0 * b.getD i 0) :=
          mul_pos (Real.sqrt_pos.mpr hApos) (Real.sqrt_pos.mpr hBpos)
        have hup : ∑ i ∈ Finset.range a.length, a.getD i 0 * b.getD i 0 ≤
            Real.sqrt (∑ i ∈ Finset.range a.length, a.getD i 0 * a.getD i 0) *
              Real.sqrt (∑ i ∈ Finset.range a.length, b.getD i 0 * b.getD i 0) :=
          listDot_le_sqrt_mul_sqrt (fun i => a.getD i 0) (fun i => b.getD i 0) a.length
        have hlo : -(Real.sqrt (∑ i ∈ Finset.range a.length, a.getD i 0 * a.getD i 0) *
              Real.sqrt (∑ i ∈ Finset.range a.length, b.getD i 0 * b.getD i 0)) ≤
            ∑ i ∈ Finset.range a.length, a.getD i 0 * b.getD i 0 := by
          have h2 := listDot_le_sqrt_mul_sqrt (fun i => a.getD i 0) (fun i => -b.getD i 0) a.length
          simp only [mul_neg, neg_mul, neg_neg, Finset.sum_neg_distrib] at h2
          linarith
        constructor
        · rw [neg_le, ← neg_div]
          exact (div_le_one hden).mpr (by linarith)
        · exact (div_le_one hden).mpr hup
  · intro hlen hA hB
    rw [CosineSimilarity, if_neg (by simp [hlen]),
      if_neg (by rintro (h | h); exacts [hA h, hB h])]

/-- Witness for C7 at concrete inputs: a 3-d and a 5-d vector give 0, and the
bound holds there. -/
theorem cosineSimilarity_spec_witness :
    CosineSimilarity [1, 2, 3] [1, 2, 3, 4, 5] = 0
    ∧ (-1 ≤ CosineSimilarity [1, 2, 3] [1, 2, 3, 4, 5]
        ∧ CosineSimilarity [1, 2, 3] [1, 2, 3, 4, 5] ≤ 1) := by
  refine ⟨(cosineSimilarity_spec [1, 2, 3] [1, 2, 3, 4, 5]).1 (Or.inl (by decide)),
    (cosineSimilarity_spec [1, 2, 3] [1, 2, 3, 4, 5]).2.1⟩

/-- Counterexample to C6 as stated: for an article with empty description and
non-empty body, the single query text sent to the provider is "T. " — the
title followed by the empty description — and not the title followed by the
body. -/
theorem scoreArticle_query_ignores_body :
    articleNoDesc.description = "" ∧ articleNoDesc.content = "body text"
    ∧ (ScoreArticle providerOne articleNoDesc []).2 = ["T. "]
    ∧ (ScoreArticle providerOne articleNoDesc []).2 ≠ ["T. body text"] := by
  refine ⟨rfl, rfl, ?_, ?_⟩
  · simp [ScoreArticle, providerOne, scoreLoop, articleText, articleNoDesc]
  · have h : (ScoreArticle providerOne articleNoDesc []).2 = ["T. "] := by
      simp [ScoreArticle, providerOne, scoreLoop, articleText, articleNoDesc]
    rw [h]
    decide

/-- C6 as amended.  `ScoreArticle` builds the single query text as
"{title}. {description}" unconditionally — an empty description is not
replaced by the body — and that text is the first request sent to the
provider. -/
theorem scoreArticle_query_text (provider : String → Option (List ℝ))
    (article : Article) (interests : List UserInterest) :
    articleText article = article.title ++ ". " ++ article.description
    ∧ (ScoreArticle provider article interests).2.head? = some (articleText article) := by
  refine ⟨rfl, ?_⟩
  unfold ScoreArticle
  cases provider (articleText article) with
  | none => rfl
  | some articleEmb =>
    rcases h : scoreLoop provider articleEmb interests 0 0 with ⟨r, calls⟩
    cases r with
    | none => simp [h]
    | some p =>
      rcases p with ⟨ts, tw⟩
      simp [h]

/-- Unfolding `specNumerator` on a list head that yields an embedding. -/
theorem specNumerator_cons_some (provider : String → Option (List ℝ)) (articleEmb v : List ℝ)
    (i : UserInterest) (rest : List UserInterest) (h : usableEmbedding provider i = some v) :
    specNumerator provider articleEmb (i :: rest) =
      CosineSimilarity articleEmb v * i.weight + specNumerator provider articleEmb rest := by
  simp [specNumerator, List.filterMap_cons, h]

/-- Unfolding `specNumerator` on a list head that yields no embedding. -/
theorem specNumerator_cons_none (provider : String → Option (List ℝ)) (articleEmb : List ℝ)
    (i : UserInterest) (rest : List UserInterest) (h : usableEmbedding provider i = none) :
    specNumerator provider articleEmb (i :: rest) =
      specNumerator provider articleEmb rest := by
  simp [specNumerator, List.filterMap_cons, h]

/-- Unfolding `specDenominator` on a list head that yields an embedding. -/
theorem specDenominator_cons_some (provider : String → Option (List ℝ)) (v : List ℝ)
    (i : UserInterest) (rest : List UserInterest) (h : usableEmbedding provider i = some v) :
    specDenominator provider (i :: rest) = i.weight + specDenominator provider rest := by
  simp [specDenominator, List.filterMap_cons, h]

/-- Unfolding `specDenominator` on a list head that yields no embedding. -/
theorem specDenominator_cons_none (provider : String → Option (List ℝ))
    (i : UserInterest) (rest : List UserInterest) (h : usableEmbedding provider i = none) :
    specDenominator provider (i :: rest) = specDenominator provider rest := by
  simp [specDenominator, List.filterMap_cons, h]

/-- Unfolding `emptyCacheDescs` on a list head with an empty cache. -/
theorem emptyCacheDescs_cons_empty (i : UserInterest) (rest : List UserInterest)
    (h : i.embedding = EmbBytes.empty) :
    emptyCacheDescs (i :: rest) = i.description :: emptyCacheDescs rest := by
  simp [emptyCacheDescs, List.filterMap_cons, h]

/-- Unfolding `emptyCacheDescs` on a list head with a decodable cache. -/
theorem emptyCacheDescs_cons_valid (i : UserInterest) (rest : List UserInterest) (v : List ℝ)
    (h : i.embedding = EmbBytes.valid v) :
    emptyCacheDescs (i :: rest) = emptyCacheDescs rest := by
  simp [emptyCacheDescs, List.filterMap_cons, h]

/-- The interest loop, run over a list with no corrupt cached embedding,
accumulates exactly the spec-side numerator and denominator and requests
exactly the empty-cache descriptions. -/
theorem scoreLoop_no_corrupt (provider : String → Option (List ℝ)) (articleEmb : List ℝ)
    (l : List UserInterest) (h : ∀ i ∈ l, i.embedding ≠ EmbBytes.corrupt) :
    ∀ ts tw : ℝ, scoreLoop provider articleEmb l ts tw =
      (some (ts + specNumerator provider articleEmb l, tw + specDenominator provider l),
        emptyCacheDescs l) := by
  induction l with
  | nil => intro ts tw; simp [scoreLoop, specNumerator, specDenominator, emptyCacheDescs]
  | cons i rest ih =>
    intro ts tw
    have hrest : ∀ j ∈ rest, j.embedding ≠ EmbBytes.corrupt :=
      fun j hj => h j (List.mem_cons_of_mem i hj)
    cases hemb : i.embedding with
    | corrupt => exact absurd hemb (h i (List.mem_cons_self i rest))
    | valid v =>
      have hu : usableEmbedding provider i = some v := by simp [usableEmbedding, hemb]
      rw [specNumerator_cons_some provider articleEmb v i rest hu,
        specDenominator_cons_some provider v i rest hu,
        emptyCacheDescs_cons_valid i rest v hemb]
      simp only [scoreLoop, hemb]
      rw [ih hrest]
      simp only [add_assoc]
    | empty =>
      cases hp : provider i.description with
      | none =>
        have hu : usableEmbedding provider i = none := by simp [usableEmbedding, hemb, hp]
        rw [specNumerator_cons_none provider articleEmb i rest hu,
          specDenominator_cons_none provider i rest hu,
          emptyCacheDescs_cons_empty i rest hemb]
        simp only [scoreLoop, hemb, hp]
        rw [ih hrest]
      | some v =>
        have hu : usableEmbedding provider i = some v := by simp [usableEmbedding, hemb, hp]
        rw [specNumerator_cons_some provider articleEmb v i rest hu,
          specDenominator_cons_some provider v i rest hu,
          emptyCacheDescs_cons_empty i rest hemb]
        simp only [scoreLoop, hemb, hp]
        rw [ih hrest]
        simp only [add_assoc]

/-- C2.  Once the article embedding has been obtained, and no interest carries
a corrupted cached embedding (that case aborts instead, see the unmarshal
claim), `ScoreArticle` returns without error exactly
Σ(similarity · weight) / Σ(weight) over the interests that yielded a usable
embedding — an interest whose fresh embedding generation fails contributes to
neither sum — and returns 0 when the total usable weight is 0. -/
theorem scoreArticle_weighted_average (provider : String → Option (List ℝ))
    (article : Article) (interests : List UserInterest) (articleEmb : List ℝ)
    (hA : provider (articleText article) = some articleEmb)
    (hC : ∀ i ∈ interests, i.embedding ≠ EmbBytes.corrupt) :
    (ScoreArticle provider article interests).1 =
      Except.ok (if specDenominator provider interests = 0 then 0
        else specNumerator provider articleEmb interests /
          specDenominator provider interests) := by
  simp only [ScoreArticle, hA]
  rw [scoreLoop_no_corrupt provider articleEmb interests hC 0 0]
  simp only [zero_add]
  split <;> simp_all

/-- Witness for C2 at the concrete inputs of the spec example: two cached
interests with similarities 1 and 0 and weights 2 and 1, score exactly 2/3. -/
theorem scoreArticle_weighted_average_witness :
    providerE1 (articleText articleNews) = some [1, 0]
    ∧ (∀ i ∈ [interestSim1, interestSim0], i.embedding ≠ EmbBytes.corrupt)
    ∧ (ScoreArticle providerE1 articleNews [interestSim1, interestSim0]).1 =
      Except.ok (2 / 3) := by
  have hC : ∀ i ∈ [interestSim1, interestSim0], i.embedding ≠ EmbBytes.corrupt := by
    intro i hi
    simp only [List.mem_cons, List.not_mem_nil, or_false] at hi
    rcases hi with rfl | rfl <;> simp [interestSim1, interestSim0]
  refine ⟨rfl, hC, ?_⟩
  have h := scoreArticle_weighted_average providerE1 articleNews
    [interestSim1, interestSim0] [1, 0] rfl hC
  rw [h]
  have hcos1 : CosineSimilarity [1, 0] [1, 0] = 1 := by
    rw [CosineSimilarity, if_neg (by simp)]
    rw [if_neg (by norm_num [Finset.sum_range_succ])]
    norm_num [Finset.sum_range_succ, Real.sqrt_one]
  have hcos0 : CosineSimilarity [1, 0] [0, 1] = 0 := by
    rw [CosineSimilarity, if_neg (by simp)]
    rw [if_neg (by norm_num [Finset.sum_range_succ])]
    norm_num [Finset.sum_range_succ]
  have hden : specDenominator providerE1 [interestSim1, interestSim0] = 3 := by
    rw [specDenominator_cons_some providerE1 [1, 0] interestSim1 [interestSim0]
        (by simp [usableEmbedding, interestSim1]),
      specDenominator_cons_some providerE1 [0, 1] interestSim0 []
        (by simp [usableEmbedding, interestSim0])]
    simp [specDenominator, interestSim1, interestSim0]
    norm_num
  have hnum : specNumerator providerE1 [1, 0] [interestSim1, interestSim0] = 2 := by
    rw [specNumerator_cons_some providerE1 [1, 0] [1, 0] interestSim1 [interestSim0]
        (by simp [usableEmbedding, interestSim1]),
      specNumerator_cons_some providerE1 [1, 0] [0, 1] interestSim0 []
        (by simp [usableEmbedding, interestSim0])]
    simp [specNumerator, interestSim1, interestSim0, hcos1, hcos0]
  rw [hden, hnum]
  norm_num

/-- The interest loop hits a corrupted cached embedding: every earlier
interest is processed normally, then the loop returns the error immediately,
never reaching the later interests; the provider traffic is exactly the
empty-cache requests of the earlier interests. -/
theorem scoreLoop_corrupt (provider : String → Option (List ℝ)) (articleEmb : List ℝ)
    (firsts : List UserInterest) (i : UserInterest) (rest : List UserInterest)
    (hf : ∀ j ∈ firsts, j.embedding ≠ EmbBytes.corrupt)
    (hi : i.embedding = EmbBytes.corrupt) :
    ∀ ts tw : ℝ, scoreLoop provider articleEmb (firsts ++ i :: rest) ts tw =
      (none, emptyCacheDescs firsts) := by
  induction firsts with
  | nil =>
    intro ts tw
    simp only [List.nil_append, scoreLoop, hi]
    simp [emptyCacheDescs]
  | cons j tail ih =>
    intro ts tw
    have htail : ∀ x ∈ tail, x.embedding ≠ EmbBytes.corrupt :=
      fun x hx => hf x (List.mem_cons_of_mem j hx)
    cases hemb : j.embedding with
    | corrupt => exact absurd hemb (hf j (List.mem_cons_self j tail))
    | valid v =>
      rw [emptyCacheDescs_cons_valid j tail v hemb]
      simp only [List.cons_append, scoreLoop, hemb]
      exact ih htail _ _
    | empty =>
      rw [emptyCacheDescs_cons_empty j tail hemb]
      cases hp : provider j.description with
      | none =>
        simp only [List.cons_append, scoreLoop, hemb, hp]
        simp [ih htail]
      | some v =>
        simp only [List.cons_append, scoreLoop, hemb, hp]
        simp [ih htail]

/-- C10.  When some interest carries a non-empty cached embedding whose bytes
do not decode, `ScoreArticle` — once the article embedding is obtained —
returns the unmarshal error (the Go `return 0, err` path) instead of skipping
that interest, and its provider traffic stops at the interests before the
corrupted one: no later interest is processed. -/
theorem scoreArticle_corrupt_cache_aborts (provider : String → Option (List ℝ))
    (article : Article) (articleEmb : List ℝ)
    (firsts : List UserInterest) (i : UserInterest) (rest : List UserInterest)
    (hA : provider (articleText article) = some articleEmb)
    (hf : ∀ j ∈ firsts, j.embedding ≠ EmbBytes.corrupt)
    (hi : i.embedding = EmbBytes.corrupt) :
    (ScoreArticle provider article (firsts ++ i :: rest)).1 =
      Except.error ScoreErr.unmarshalInterest
    ∧ (ScoreArticle provider article (firsts ++ i :: rest)).2 =
      articleText article :: emptyCacheDescs firsts := by
  have h := scoreLoop_corrupt provider articleEmb firsts i rest hf hi 0 0
  constructor <;> simp [ScoreArticle, hA, h]

/-- Witness for C10 at concrete inputs: with an uncached interest before the
corrupted one and another interest after it, scoring errors out and the
provider sees only the article text and the earlier interest. -/
theorem scoreArticle_corrupt_cache_aborts_witness :
    providerOne (articleText articleNoDesc) = some [1]
    ∧ (∀ j ∈ [interestUncached], j.embedding ≠ EmbBytes.corrupt)
    ∧ interestCorrupt.embedding = EmbBytes.corrupt
    ∧ (ScoreArticle providerOne articleNoDesc
        ([interestUncached] ++ interestCorrupt :: [interestSim1])).1 =
      Except.error ScoreErr.unmarshalInterest
    ∧ (ScoreArticle providerOne articleNoDesc
        ([interestUncached] ++ interestCorrupt :: [interestSim1])).2 = ["T. ", "topic"] := by
  have hf : ∀ j ∈ [interestUncached], j.embedding ≠ EmbBytes.corrupt := by
    intro j hj
    simp only [List.mem_cons, List.not_mem_nil, or_false] at hj
    subst hj
    simp [interestUncached]
  have h := scoreArticle_corrupt_cache_aborts providerOne articleNoDesc [1]
    [interestUncached] interestCorrupt [interestSim1] rfl hf rfl
  refine ⟨rfl, hf, rfl, h.1, ?_⟩
  rw [h.2]
  simp [articleText, articleNoDesc, emptyCacheDescs, interestUncached]

/-- Evidence for C5 being violated by the code.  `ScoreAllUnscored` fetches
the interests once and passes the same slice to `ScoreArticle` for every
article; the Go loop variable is a copy of the slice element, so the
assignment `interest.Embedding = embData` after a successful generation is
lost when the iteration ends, and the database layer (part_003) has no
operation that updates an interest row at all.  Hence `ScoreArticle` is a
pure function of its arguments, and scoring two articles in sequence against
the same interest list — one with no cached embedding — sends the provider a
fresh embedding request for that same interest both times, even though its
embedding was already obtained during the first scoring. -/
theorem scoreArticle_refetches_uncached_embedding :
    (ScoreArticle providerOne articleNoDesc [interestUncached]).2 = ["T. ", "topic"]
    ∧ (ScoreArticle providerOne articleOther [interestUncached]).2 = ["U. d", "topic"] := by
  constructor <;>
    simp [ScoreArticle, providerOne, scoreLoop, articleText, articleNoDesc, articleOther,
      interestUncached]

/-- Counterexample to C3 as stated: with article 1 already marked read, a
second `MarkArticleRead` call returns the primary-key constraint violation as
an error — it does not return without error. -/
theorem markArticleRead_double_errors :
    MarkArticleRead storeMarked 1 6 =
      Except.error "UNIQUE constraint failed: read_articles.article_id" := by
  rfl

/-- C3 as amended.  A `MarkArticleRead` call on an item that already has a
read marker returns the constraint-violation error (so no second marker is
inserted and no store state is returned); the insert is a plain INSERT with
no conflict clause, so the duplicate is not a silent no-op. -/
theorem markArticleRead_already_marked (st : Store) (articleId now : Int)
    (h : (st.readArticles.any fun r => r.articleId = articleId) = true) :
    MarkArticleRead st articleId now =
      Except.error "UNIQUE constraint failed: read_articles.article_id" := by
  simp [MarkArticleRead, h]

/-- Witness for C3 as amended, at the concrete marked store. -/
theorem markArticleRead_already_marked_witness :
    ((storeMarked.readArticles.any fun r => r.articleId = 1) = true)
    ∧ MarkArticleRead storeMarked 1 6 =
      Except.error "UNIQUE constraint failed: read_articles.article_id" :=
  ⟨by decide, markArticleRead_already_marked storeMarked 1 6 (by decide)⟩

/-- Counterexample to C4 as stated: an unread article whose stored relevance
score is the non-zero value -1 is re-touched by `ScoreAllUnscored` — its id
is processed and its stored score is overwritten — because the code skips
only scores strictly greater than 0, not all non-zero scores. -/
theorem scoreAllUnscored_retouches_negative_score :
    articleNegScore.relevanceScore = -1
    ∧ (ScoreAllUnscored scorerHalf storeNegScore 0 10).2 = [1]
    ∧ (ScoreAllUnscored scorerHalf storeNegScore 0 10).1.articles.map
        (fun a => a.relevanceScore) = [1 / 2] := by
  refine ⟨rfl, ?_, ?_⟩ <;>
    norm_num [ScoreAllUnscored, GetUnreadArticles, storeNegScore, articleNegScore, unreadPred,
      UpdateArticleRelevance, scoreStep, scorerHalf, interestUncached]

/-- `scoreStep` skips an article with positive stored score. -/
theorem scoreStep_skip_positive (scorer : Article → Option ℚ) (acc : Store × List Int)
    (a : Article) (h : 0 < a.relevanceScore) : scoreStep scorer acc a = acc := by
  simp [scoreStep, h]

/-- `scoreStep` skips an article on a scoring failure. -/
theorem scoreStep_skip_failure (scorer : Article → Option ℚ) (acc : Store × List Int)
    (a : Article) (h : ¬0 < a.relevanceScore) (hs : scorer a = none) :
    scoreStep scorer acc a = acc := by
  simp [scoreStep, h, hs]

/-- `scoreStep` writes back a successfully obtained score for an article
whose stored score is not positive. -/
theorem scoreStep_write (scorer : Article → Option ℚ) (acc : Store × List Int)
    (a : Article) (s : ℚ) (h : ¬0 < a.relevanceScore) (hs : scorer a = some s) :
    scoreStep scorer acc a = (UpdateArticleRelevance acc.1 a.id s, acc.2 ++ [a.id]) := by
  simp [scoreStep, h, hs]

/-- The write-back fold of `ScoreAllUnscored` touches exactly the articles
with score at most 0 for which the scorer succeeds, in order, from any
accumulator. -/
theorem scoreFold_touched (scorer : Article → Option ℚ) (l : List Article) :
    ∀ st0 : Store, ∀ ids : List Int,
      (l.foldl (scoreStep scorer) (st0, ids)).2 =
        ids ++ (l.filter fun a => decide (a.relevanceScore ≤ 0) && (scorer a).isSome).map
          (fun a => a.id) := by
  induction l with
  | nil => intro st0 ids; simp
  | cons a rest ih =>
    intro st0 ids
    by_cases hpos : 0 < a.relevanceScore
    · have hfil : ((a :: rest).filter fun x =>
          decide (x.relevanceScore ≤ 0) && (scorer x).isSome) =
          rest.filter fun x => decide (x.relevanceScore ≤ 0) && (scorer x).isSome := by
        simp [List.filter_cons, decide_eq_false (not_le.mpr hpos)]
      rw [hfil, List.foldl_cons, scoreStep_skip_positive scorer (st0, ids) a hpos]
      exact ih st0 ids
    · cases hs : scorer a with
      | none =>
        have hfil : ((a :: rest).filter fun x =>
            decide (x.relevanceScore ≤ 0) && (scorer x).isSome) =
            rest.filter fun x => decide (x.relevanceScore ≤ 0) && (scorer x).isSome := by
          simp [List.filter_cons, hs]
        rw [hfil, List.foldl_cons, scoreStep_skip_failure scorer (st0, ids) a hpos hs]
        exact ih st0 ids
      | some s =>
        have hfil : ((a :: rest).filter fun x =>
            decide (x.relevanceScore ≤ 0) && (scorer x).isSome) =
            a :: (rest.filter fun x => decide (x.relevanceScore ≤ 0) && (scorer x).isSome) := by
          simp [List.filter_cons, hs, decide_eq_true (not_lt.mp hpos)]
        rw [hfil, List.map_cons, List.foldl_cons,
          scoreStep_write scorer (st0, ids) a s hpos hs,
          ih (UpdateArticleRelevance st0 a.id s) (ids ++ [a.id])]
        simp

/-- The write-back fold of `ScoreAllUnscored` leaves the accumulator alone on
a list all of whose articles have positive score. -/
theorem scoreFold_all_positive (scorer : Article → Option ℚ) (l : List Article)
    (h : ∀ a ∈ l, 0 < a.relevanceScore) :
    ∀ acc : Store × List Int, l.foldl (scoreStep scorer) acc = acc := by
  induction l with
  | nil => intro acc; rfl
  | cons a rest ih =>
    intro acc
    have ha : 0 < a.relevanceScore := h a (List.mem_cons_self a rest)
    have hrest : ∀ x ∈ rest, 0 < x.relevanceScore :=
      fun x hx => h x (List.mem_cons_of_mem a hx)
    rw [List.foldl_cons, scoreStep_skip_positive scorer acc a ha]
    exact ih hrest acc

/-- C4 as amended.  With at least one interest configured, a scoring pass
touches exactly the unread in-window articles whose stored relevance score is
at most 0 (the never-scored sentinel 0 and any previously stored non-positive
score) and for which scoring succeeds — every article with strictly positive
score is skipped — and therefore a pass over a store in which every article
already has a strictly positive score touches nothing and changes nothing. -/
theorem scoreAllUnscored_spec (scorer : Article → Option ℚ) (st : Store) (now maxAge : Int)
    (hne : st.interests ≠ []) :
    (ScoreAllUnscored scorer st now maxAge).2 =
      ((GetUnreadArticles st now maxAge).filter
        (fun a => decide (a.relevanceScore ≤ 0) && (scorer a).isSome)).map (fun a => a.id)
    ∧ ((∀ a ∈ st.articles, 0 < a.relevanceScore) →
        ScoreAllUnscored scorer st now maxAge = (st, [])) := by
  constructor
  · rw [ScoreAllUnscored, if_neg (by simpa [List.isEmpty_iff] using hne)]
    rw [scoreFold_touched scorer (GetUnreadArticles st now maxAge) st []]
    simp
  · intro hall
    rw [ScoreAllUnscored]
    split
    · rfl
    · apply scoreFold_all_positive scorer (GetUnreadArticles st now maxAge)
      intro a ha
      apply hall
      have ha2 : a ∈ st.articles.filter (unreadPred st now maxAge) := by
        simpa [GetUnreadArticles, List.mem_mergeSort] using ha
      exact (List.mem_filter.mp ha2).1

/-- Witness for C4 as amended, at the concrete store with one interest and
one negative-scored article: the touched-id list is exactly the filter of the
working set, and it is the non-empty list [1]. -/
theorem scoreAllUnscored_spec_witness :
    storeNegScore.interests ≠ []
    ∧ (ScoreAllUnscored scorerHalf storeNegScore 0 10).2 =
      ((GetUnreadArticles storeNegScore 0 10).filter
        (fun a => decide (a.relevanceScore ≤ 0) && (scorerHalf a).isSome)).map
        (fun a => a.id) :=
  ⟨by simp [storeNegScore],
    (scoreAllUnscored_spec scorerHalf storeNegScore 0 10 (by simp [storeNegScore])).1⟩

end NewsReadr
